import Mathlib

/-!
Verification of the serialization and collection framework in
`eta/core/serial.py`: the `Serializable` capability, the ordered
`Container`, the keyed `Set`, and the JSON loading helpers.

The Python code is shallowly embedded: JSON values become an inductive
type, Python dicts become insertion-ordered association lists with unique
keys, class objects resolved by `etau.get_class` become entries of an
abstract registry function, and methods that mutate `self` become
functions returning the new state.
-/

namespace Eta

/-- JSON values, as produced by `json.loads` and consumed by the
`Serializable` machinery. -/
inductive Json where
  | null
  | bool (b : Bool)
  | num (n : Int)
  | str (s : String)
  | arr (elts : List Json)
  | obj (fields : List (String × Json))

/-- A Python dict with string keys, in insertion order.  Keys are unique;
`d[k] = v` either overwrites in place or appends. -/
abbrev Dict := List (String × Json)

/-- Python `d[k] = v` on an insertion-ordered dict: overwrite the value at
`k` in place if present, else append the new binding. -/
def dictSet {K V : Type} [DecidableEq K] (l : List (K × V)) (k : K) (v : V) :
    List (K × V) :=
  match l with
  | [] => [(k, v)]
  | (k', v') :: t => if k' = k then (k, v) :: t else (k', v') :: dictSet t k v

/-!
## `load_json` (serial.py lines 37-80)

The function's environment (the behaviour of `json.loads`,
`os.path.isfile` and the parsed contents of files on disk) is abstracted
into a structure so that `load_json` itself can be transcribed directly.
-/

/-- Environment for `load_json`: `parse` models `json.loads` (`none` means
`ValueError`), `isfile` models `os.path.isfile`, and `fileContents` models
`read_json` on an existing file (`none` means the file's text is not valid
JSON, in which case `read_json` raises `ValueError`). -/
structure JsonEnv where
  parse : String → Option Json
  isfile : String → Bool
  fileContents : String → Option Json

/-- Outcome of `load_json`: a parsed value, the `ValueError` raised by
`read_json` on an unparsable file, or the final aggregated `ValueError`
("Unable to load JSON from ..."). -/
inductive LoadResult where
  | ok (j : Json)
  | parseFileError (path : String)
  | unableToLoad (s : String)

/-- Python `key, value = chunk.split("=")`: succeeds only when the chunk
splits into exactly two parts; otherwise the unpacking raises
`ValueError`. -/
def splitKeyVal (chunk : String) : Option (String × String) :=
  match chunk.splitOn "=" with
  | [k, v] => some (k, v)
  | _ => none

/-- The `key=value,key=value` shorthand loop of `load_json`: each chunk of
the comma-split input must split on `=` into a key and a value that parses
as JSON; bindings are inserted into a dict (later duplicates overwrite).
`none` models the `ValueError` caught by the surrounding `except`. -/
def parseKeyVals (parse : String → Option Json) (s : String) :
    Option (List (String × Json)) :=
  (s.splitOn ",").foldlM
    (fun d chunk =>
      match splitKeyVal chunk with
      | none => none
      | some (k, v) =>
        match parse v with
        | none => none
        | some j => some (dictSet d k j))
    []

/-- Transcription of `load_json` (serial.py lines 37-72): first try
`json.loads` on the input; on `ValueError`, if the input is a path to an
existing file, return `read_json` of it (whose own `ValueError`
propagates); otherwise try the `key=value` shorthand, raising the
aggregated `ValueError` if that also fails. -/
def load_json (env : JsonEnv) (s : String) : LoadResult :=
  match env.parse s with
  | some j => .ok j
  | none =>
    if env.isfile s then
      match env.fileContents s with
      | some j => .ok j
      | none => .parseFileError s
    else
      match parseKeyVals env.parse s with
      | some d => .ok (.obj d)
      | none => .unableToLoad s

/-- Modelled from the spec's wording of the claim (not from the source),
for comparison with `load_json`: the three interpretations attempted in
the order (a) file on disk, (b) literal JSON string, (c) `key=value`
shorthand. -/
def load_json_claimed_order (env : JsonEnv) (s : String) : LoadResult :=
  match (if env.isfile s then env.fileContents s else none) with
  | some j => .ok j
  | none =>
    match env.parse s with
    | some j => .ok j
    | none =>
      match parseKeyVals env.parse s with
      | some d => .ok (.obj d)
      | none => .unableToLoad s

/-- A concrete environment in which the input string `"0"` both parses as
the JSON number `0` and names a file on disk whose contents parse as the
JSON number `1`. -/
def envZero : JsonEnv where
  parse := fun t => if t = "0" then some (.num 0) else none
  isfile := fun t => t = "0"
  fileContents := fun t => if t = "0" then some (.num 1) else none

example : load_json envZero "0" = .ok (.num 0) := rfl

example : load_json_claimed_order envZero "0" = .ok (.num 1) := rfl

/-!
## The `Set` element store (serial.py lines 410-787)

A `Set` stores its elements in an `OrderedDict` keyed by the value of the
element's `_ELE_KEY_ATTR` attribute; `add` computes
`key = self.get_key(element) or str(uuid4())`, so an empty/absent key
attribute (falsy in Python) is replaced by a freshly generated surrogate
key.  `str(uuid4())` is modelled as a fresh-name generator: the state
carries a counter and each surrogate key is distinct from every user key
(by constructor) and from every previously generated surrogate key.
-/

/-- A key of the `OrderedDict` backing a `Set`: either the (non-empty)
value of the element's key attribute, or a surrogate generated by
`str(uuid4())`. -/
inductive SetKey where
  | user (s : String)
  | surrogate (n : Nat)
deriving DecidableEq, Repr

/-- State of a `Set`: the insertion-ordered key-to-element mapping stored
in `_ELE_ATTR`, plus the state of the surrogate-key generator. -/
structure SetState (E : Type) where
  elements : List (SetKey × E)
  nextId : Nat

/-- The empty set produced by `clear()` (with a fresh generator). -/
def SetState.empty {E : Type} : SetState E := ⟨[], 0⟩

/-- Number of elements in the set (`Set.size`). -/
def SetState.size {E : Type} (s : SetState E) : Nat := s.elements.length

/-- Transcription of `Set.add` (serial.py lines 569-576): look up the
element's key attribute (`keyOf`, with `""` standing for the falsy
empty/absent case); if it is falsy generate a surrogate key; then
`self.__elements__[key] = element`, which overwrites in place on
collision and appends otherwise. -/
def Set.add {E : Type} (keyOf : E → String) (s : SetState E) (e : E) :
    SetState E :=
  if keyOf e = "" then
    ⟨dictSet s.elements (.surrogate s.nextId) e, s.nextId + 1⟩
  else
    ⟨dictSet s.elements (.user (keyOf e)) e, s.nextId⟩

/-- `Set.add_iterable` on an already-materialized sequence of elements:
adds each in order. -/
def Set.add_iterable {E : Type} (keyOf : E → String) (s : SetState E)
    (es : List E) : SetState E :=
  es.foldl (Set.add keyOf) s

/-!
## Construction (serial.py lines 475-501 and 844-870)

Both constructors first run the eager type-check loop
`for e in elements: if not isinstance(e, self._ELE_CLS): raise ...`
over the supplied iterable, then `self.clear()` and
`self.add_iterable(elements)`.  The `isinstance` test against the
subclass-configured `_ELE_CLS` is modelled by a boolean predicate
`isInst`.  When the iterable is a one-shot iterator (e.g. a generator),
the check loop consumes it, and `add_iterable` then iterates the
already-exhausted object.
-/

/-- A one-shot iterator over elements of type `E` (e.g. a Python
generator): iterating it yields its remaining items and leaves it
exhausted. -/
structure OneShotIter (E : Type) where
  remaining : List E

/-- Fully iterating a one-shot iterator: yields the remaining items in
order and returns the exhausted iterator. -/
def OneShotIter.drain {E : Type} (it : OneShotIter E) :
    List E × OneShotIter E :=
  (it.remaining, ⟨[]⟩)

/-- `Container.__init__` when the elements are supplied as a list: the
type-check loop inspects each element (raising `ContainerError` on a
mismatch, modelled as `.error`), then `add_iterable` takes the
`isinstance(elements, list)` fast path and extends the element list in
order. -/
def Container.initFromList {E : Type} (isInst : E → Bool) (l : List E) :
    Except String (List E) :=
  if l.all isInst then .ok l else .error "ContainerError"

/-- `Container.__init__` when the elements are supplied as a one-shot
iterator: the type-check loop `for e in elements` consumes the iterator
while checking each produced element, and `add_iterable` then falls into
its generic branch and iterates the exhausted iterator. -/
def Container.initFromIter {E : Type} (isInst : E → Bool)
    (it : OneShotIter E) : Except String (List E) :=
  let checked := it.drain
  if checked.1.all isInst then
    let toAdd := checked.2.drain
    .ok toAdd.1
  else
    .error "ContainerError"

/-- `Set.__init__` when the elements are supplied as a list: type-check
each element eagerly, then `clear()` and `add_iterable`, which re-derives
every key through `add`. -/
def Set.initFromList {E : Type} (keyOf : E → String) (isInst : E → Bool)
    (l : List E) : Except String (SetState E) :=
  if l.all isInst then .ok (Set.add_iterable keyOf SetState.empty l)
  else .error "SetError"

/-- `Set.__init__` when the elements are supplied as a one-shot iterator:
the type-check loop consumes the iterator, and `add_iterable` then adds
the items of the exhausted iterator. -/
def Set.initFromIter {E : Type} (keyOf : E → String) (isInst : E → Bool)
    (it : OneShotIter E) : Except String (SetState E) :=
  let checked := it.drain
  if checked.1.all isInst then
    let toAdd := checked.2.drain
    .ok (Set.add_iterable keyOf SetState.empty toAdd.1)
  else
    .error "SetError"

/-!
## Filtering (serial.py lines 595-607, 660-678, 764-767, 951-964,
1017-1033, 1111-1113)

`filter_elements(filters, match)` replaces the element store with
`_filter_elements(filters, match)`; the aggregator `match` is `any` or
`all` over the filter outputs.  `get_matches` builds a new collection
from the matching elements and leaves `self` untouched (for `Container`
it constructs `self.__class__(...)` from the filtered list; for `Set` it
copies the whole set and filters the copy).  Methods are modelled as
functions on the element store; `get_matches` returns the pair
(new collection, state of `self` after the call).
-/

/-- The aggregator argument `match` of the filtering methods: Python's
`any` or `all`. -/
inductive Combinator where
  | any
  | all
deriving DecidableEq, Repr

/-- Python `match(f(o) for f in filters)` for `match` equal to
`any`/`all`. -/
def Combinator.combine (m : Combinator) (outputs : List Bool) : Bool :=
  match m with
  | .any => outputs.any id
  | .all => outputs.all id

/-- Transcription of `Container._filter_elements` (serial.py lines
1111-1113): keep the elements `o` with `match(f(o) for f in filters)`. -/
def Container.filter_elements {E : Type} (filters : List (E → Bool))
    (m : Combinator) (l : List E) : List E :=
  l.filter (fun o => m.combine (filters.map (fun f => f o)))

/-- `Container.get_matches` (serial.py lines 1017-1033): builds a new
container of the same class from `_filter_elements` without reassigning
`self`'s element attribute.  Returns (new container, `self` after the
call). -/
def Container.get_matches {E : Type} (filters : List (E → Bool))
    (m : Combinator) (l : List E) : List E × List E :=
  (Container.filter_elements filters m l, l)

/-- Transcription of `Set._filter_elements` (serial.py lines 764-767):
keep the key-element pairs whose element matches. -/
def Set.filter_elements {E : Type} (filters : List (E → Bool))
    (m : Combinator) (s : SetState E) : SetState E :=
  ⟨s.elements.filter (fun kv => m.combine (filters.map (fun f => f kv.2))),
    s.nextId⟩

/-- `Set.get_matches` (serial.py lines 660-678): deep-copies the set and
filters the copy, leaving `self` untouched.  Returns (new set, `self`
after the call). -/
def Set.get_matches {E : Type} (filters : List (E → Bool))
    (m : Combinator) (s : SetState E) : SetState E × SetState E :=
  (Set.filter_elements filters m s, s)

/-!
## Sorting (serial.py lines 680-697 and 1035-1050)

`sort_by(attr, reverse)` calls Python's `sorted` with
`key=field_none_last` and `reverse=reverse`, where
`field_none_last(e) = ((val is None) ^ reverse, val)` with
`val = getattr(e, attr)`.  Python's `sorted` is the stable sort with
respect to `<` on the keys; for a total key order its output is the
unique stable sorted permutation, so it is modelled by a stable insertion
sort.  `pySorted le` inserts each element (working from the tail of the
input back to the head) before the first already-placed element `b` with
`le a b = true`; taking `le` to be non-strict key comparison for
ascending order, and its transpose for `reverse=True`, reproduces
Python's stable ascending/descending behaviour.  Attribute values are
modelled as `Option Int`: `none` is Python's `None`, and comparison of
values is the total order in which `None` compares below everything (two
`None` values compare equal), matching the code's "always puts None last"
key trick.
-/

/-- Stable insertion of `a` into `l`: `a` is placed before the first
element `b` with `le a b = true`. -/
def pyInsert {α : Type} (le : α → α → Bool) (a : α) : List α → List α
  | [] => [a]
  | b :: l => if le a b then a :: b :: l else b :: pyInsert le a l

/-- Stable insertion sort with respect to the non-strict comparison `le`:
the model of Python's `sorted`. -/
def pySorted {α : Type} (le : α → α → Bool) : List α → List α
  | [] => []
  | a :: l => pyInsert le a (pySorted le l)

/-- Non-strict total order on attribute values used by the sort key:
`none` (Python's `None`) compares below every number and equal to
itself. -/
def valLe (v w : Option Int) : Bool :=
  match v, w with
  | none, _ => true
  | some _, none => false
  | some a, some b => a ≤ b

/-- Non-strict lexicographic order on the sort keys
`(val is None) ^ reverse, val)` produced by `field_none_last`, with
`False < True` on booleans. -/
def keyLe (k1 k2 : Bool × Option Int) : Bool :=
  (!k1.1 && k2.1) || (k1.1 == k2.1 && valLe k1.2 k2.2)

/-- The `key` function of `sort_by` (serial.py lines 689-691 and
1044-1046): `((val is None) ^ reverse, val)`. -/
def field_none_last {E : Type} (attr : E → Option Int) (reverse : Bool)
    (e : E) : Bool × Option Int :=
  ((attr e).isNone ^^ reverse, attr e)

/-- The element-level comparison realized by
`sorted(..., key=field_none_last, reverse=reverse)`: non-strict key
comparison for ascending order, its transpose for descending order. -/
def sortByLe {E : Type} (attr : E → Option Int) (reverse : Bool)
    (a b : E) : Bool :=
  if reverse then
    keyLe (field_none_last attr reverse b) (field_none_last attr reverse a)
  else
    keyLe (field_none_last attr reverse a) (field_none_last attr reverse b)

/-- Transcription of `Container.sort_by` (serial.py lines 1035-1050). -/
def Container.sort_by {E : Type} (attr : E → Option Int) (reverse : Bool)
    (l : List E) : List E :=
  pySorted (sortByLe attr reverse) l

/-- Transcription of `Set.sort_by` (serial.py lines 680-697): sorts the
key-element pairs of the backing `OrderedDict` by the element's
attribute. -/
def Set.sort_by {E : Type} (attr : E → Option Int) (reverse : Bool)
    (s : SetState E) : SetState E :=
  ⟨pySorted (fun a b => sortByLe attr reverse a.2 b.2) s.elements,
    s.nextId⟩

/-!
## `Serializable.from_dict` (serial.py lines 331-358)

The base-class decoder: if the dictionary carries the type-identity tag
`"_CLS"`, it pops the tag (mutating the caller's dictionary), resolves
the popped name via `etau.get_class`, and calls the resolved class's
`from_dict` on the same (now tag-less) dictionary.  A class that does not
override `from_dict` inherits this very method, so the call recurses — and
terminates because the tag was removed.  If no tag is present it raises
`NotImplementedError`.

`etau.get_class` applied to the popped value is modelled as a registry
function from the popped `Json` value to a class descriptor (`none`
covers both an unresolvable name and a non-string tag value).  A class's
own `from_dict` override is modelled as constructing an object of that
class from the tag-less dictionary, without further mutation — which
matches the overrides in this module (`Set.from_dict` and
`Container.from_dict` only read their argument).
-/

/-- A class resolved by `etau.get_class` during reflective decoding of a
plain `Serializable`: its fully-qualified name and whether it overrides
`from_dict`. -/
structure SCls where
  name : String
  hasFromDict : Bool
deriving DecidableEq, Repr

/-- Outcome of `Serializable.from_dict`: an object built by the resolved
class's `from_dict` override, a `NotImplementedError`, or the
`ImportError` from `etau.get_class`. -/
inductive SResult where
  | obj (clsName : String) (d : Dict)
  | notImplemented
  | importError

/-- Python `d.pop("_CLS")`'s effect on the dictionary: remove the
binding for `"_CLS"` (keys of a dict are unique). -/
def eraseCLS (d : Dict) : Dict := d.filter (fun kv => kv.1 ≠ "_CLS")

theorem eraseCLS_length_lt {d : Dict} {v : Json}
    (h : d.lookup "_CLS" = some v) : (eraseCLS d).length < d.length := by
  induction d with
  | nil => simp [List.lookup] at h
  | cons kv t ih =>
    by_cases hk : kv.1 = "_CLS"
    · have : (eraseCLS t).length ≤ t.length := by
        simpa [eraseCLS] using List.length_filter_le _ t
      simp only [eraseCLS, List.filter_cons, hk]
      simp only [decide_eq_true_eq]
      rw [if_neg (by simp [hk])]
      calc (eraseCLS t).length ≤ t.length := this
        _ < (kv :: t).length := by simp

    · have hl : t.lookup "_CLS" = some v := by
        obtain ⟨k, b⟩ := kv
        simp only [List.lookup] at h
        rw [show (("_CLS" == k) = false) by
          simpa using fun hc => hk (by simp_all)] at h
        exact h
      have := ih hl
      obtain ⟨k, b⟩ := kv
      simp only [eraseCLS, List.filter_cons] at *
      rw [if_pos (by simpa using hk)]
      simpa using this

theorem lookup_eraseCLS (d : Dict) : (eraseCLS d).lookup "_CLS" = none := by
  induction d with
  | nil => rfl
  | cons kv t ih =>
    obtain ⟨k, b⟩ := kv
    by_cases hk : k = "_CLS"
    · simpa [eraseCLS, List.filter_cons, hk] using ih
    · simp only [eraseCLS, List.filter_cons] at *
      rw [if_pos (by simpa using hk)]
      simpa [List.lookup, show ("_CLS" == k) = false by
        simpa using fun hc => hk (by simp_all)] using ih

/-- Transcription of `Serializable.from_dict` (serial.py lines 331-358).
Returns the outcome together with the final state of the caller's
dictionary.  With the tag present: pop it, resolve the popped value, and
invoke the resolved class's `from_dict` on the popped dictionary — which
is this same method again when the class has no override.  Without the
tag: `NotImplementedError`. -/
def Serializable.from_dict (reg : Json → Option SCls) (d : Dict) :
    SResult × Dict :=
  match h : d.lookup "_CLS" with
  | some v =>
    match reg v with
    | none => (.importError, eraseCLS d)
    | some c =>
      if c.hasFromDict then (.obj c.name (eraseCLS d), eraseCLS d)
      else Serializable.from_dict reg (eraseCLS d)
  | none => (.notImplemented, d)
termination_by d.length
decreasing_by exact eraseCLS_length_lt h

/-!
## Container and Set serialization (serial.py lines 703-762 and
1056-1109)

`Container.serialize` builds an ordered dictionary: in reflective mode
first `"_CLS"` (the container's fully-qualified class name) and then the
`_ELE_CLS_FIELD` key (default `"_ELEMENT_CLS"`, holding the element
class's name); then the `_ELE_ATTR` key (default `"elements"`) holding
the element-wise serialization of the element list, in order.
`Set.serialize` is identical except that the values of the backing
`OrderedDict` are flattened into a list (keys are not persisted).

`Container.from_dict` resolves the classes named by the document (or,
absent a `"_CLS"` tag, validates and uses the receiving class), decodes
each entry of the element list through the element class's `from_dict`,
and hands the decoded list to the resolved class's constructor.  Classes
are modelled by descriptors carrying the class-level configuration
members consulted by the code, plus the root hierarchy (`"Container"` or
`"Set"`) the class belongs to; the descriptor's `hier` field is recorded
so that cross-hierarchy claims can be stated, and one can observe in the
definitions below that `from_dict` never consults it.  Element-class
behaviour is abstracted into functions indexed by the element class
name: `eleDec` models `ele_cls.from_dict` (`none` meaning the decode
raised) and `isInst` models `isinstance(e, cls._ELE_CLS)`.
-/

/-- Class-level configuration of a `Container` or `Set` subclass, as read
by `from_dict` and the constructor: the fully-qualified class name, the
root hierarchy the class descends from, `_ELE_CLS_FIELD`, `_ELE_ATTR`,
the name of `_ELE_CLS` (`none` when unset), and whether `_ELE_CLS` is a
`Serializable` subclass.  `_ELE_ATTR` is modelled as always set (its
default is `"elements"`). -/
structure ClsInfo where
  name : String
  hier : String
  eleClsField : Option String
  eleAttr : String
  eleCls : Option String
  eleClsSerializable : Bool
deriving DecidableEq, Repr

/-- Outcome of `Container.from_dict` / `Set.from_dict`: a constructed
instance of the named class holding the decoded elements in order, or one
of the errors the code path can raise. -/
inductive CResult (E : Type) where
  | ok (clsName : String) (elements : List E)
  | containerError (msg : String)
  | importError (name : String)
  | keyError (key : String)
  | elementError
  | typeError

/-- Whether a decode outcome is a successfully constructed object. -/
def CResult.isOk {E : Type} : CResult E → Bool
  | .ok _ _ => true
  | _ => false

/-- The class name carried by a successful decode outcome. -/
def CResult.clsName {E : Type} : CResult E → Option String
  | .ok n _ => some n
  | _ => none

/-- The string payload of a JSON value, as required of the class-name
tags by `etau.get_class`. -/
def Json.str? : Json → Option String
  | .str s => some s
  | _ => none

/-- Transcription of `Container.serialize` (serial.py lines 1056-1071)
for a container of class name `clsName` with `_ELE_CLS_FIELD` `cf`,
element class name `eleClsName` and `_ELE_ATTR` `af`: the reflective
header followed by the element-wise serialization of the element list. -/
def Container.serialize {E : Type} (clsName cf eleClsName af : String)
    (eleSer : E → Json) (reflective : Bool) (elements : List E) : Dict :=
  (if reflective then [("_CLS", Json.str clsName), (cf, Json.str eleClsName)]
   else [])
    ++ [(af, Json.arr (elements.map eleSer))]

/-- Transcription of `Set.serialize` (serial.py lines 703-725): like
`Container.serialize`, over the values of the backing `OrderedDict` (the
keys are dropped and re-generated during de-serialization). -/
def Set.serialize {E : Type} (clsName cf eleClsName af : String)
    (eleSer : E → Json) (reflective : Bool) (s : SetState E) : Dict :=
  (if reflective then [("_CLS", Json.str clsName), (cf, Json.str eleClsName)]
   else [])
    ++ [(af, Json.arr ((s.elements.map Prod.snd).map eleSer))]

/-- The constructor call `cls(**{cls._ELE_ATTR: elements})` issued at the
end of `Container.from_dict`: `_validate` (serial.py lines 1115-1125)
checks that `_ELE_CLS` is set and `Serializable`, then the element list
is type-checked eagerly and stored in order. -/
def Container.construct {E : Type} (cls : ClsInfo)
    (isInst : String → E → Bool) (elements : List E) : CResult E :=
  match cls.eleCls with
  | none => .containerError "_ELE_CLS is None"
  | some ec =>
    if !cls.eleClsSerializable then .containerError "not Serializable"
    else if elements.all (isInst ec) then .ok cls.name elements
    else .containerError "type mismatch"

/-- The list comprehension `[ele_cls.from_dict(dd) for dd in items]`:
decode each entry in order, propagating the first failure. -/
def decodeList {E : Type} (dec : Json → Option E) :
    List Json → Option (List E)
  | [] => some []
  | j :: t =>
    match dec j with
    | none => none
    | some e =>
      match decodeList dec t with
      | none => none
      | some es => some (e :: es)

/-- The tail of `Container.from_dict` once the container class `cls` and
element class are known: evaluate
`[ele_cls.from_dict(dd) for dd in d[cls._ELE_ATTR]]` (a `KeyError` if the
element attribute is missing, a `TypeError` if its value is not a list,
and propagation of any element decode failure), then construct `cls` from
the decoded list. -/
def Container.decodeElements {E : Type} (cls : ClsInfo)
    (eleClsName : String) (eleDec : String → Json → Option E)
    (isInst : String → E → Bool) (d : Dict) : CResult E :=
  match d.lookup cls.eleAttr with
  | none => .keyError cls.eleAttr
  | some (Json.arr items) =>
    match decodeList (eleDec eleClsName) items with
    | none => .elementError
    | some elements => Container.construct cls isInst elements
  | some _ => .typeError

/-- Transcription of `Container.from_dict` (serial.py lines 1073-1109),
invoked on the entry class `entry`.  With a `"_CLS"` tag: check that the
*entry* class's `_ELE_CLS_FIELD` key is present, resolve the tag and then
the element-class name stored under the *resolved* class's
`_ELE_CLS_FIELD`, and decode.  Without a tag: validate the entry class
(the bare `cls()` call) and decode with its own `_ELE_CLS`.  No step
relates the resolved class to the entry class or its hierarchy. -/
def Container.from_dict {E : Type} (entry : ClsInfo)
    (reg : String → Option ClsInfo) (eleDec : String → Json → Option E)
    (isInst : String → E → Bool) (d : Dict) : CResult E :=
  match entry.eleClsField with
  | none => .containerError "abstract container"
  | some entryCF =>
    match d.lookup "_CLS" with
    | some clsTag =>
      if (d.lookup entryCF).isNone then
        .containerError "element class field not found"
      else
        match clsTag.str? with
        | none => .importError "class name is not a string"
        | some clsName =>
          match reg clsName with
          | none => .importError clsName
          | some cls =>
            match cls.eleClsField with
            | none => .keyError "None"
            | some cf =>
              match d.lookup cf with
              | none => .keyError cf
              | some eleTag =>
                match eleTag.str? with
                | none => .importError "class name is not a string"
                | some eleClsName =>
                  Container.decodeElements cls eleClsName eleDec isInst d
    | none =>
      match entry.eleCls with
      | none => .containerError "_ELE_CLS is None"
      | some ec =>
        if !entry.eleClsSerializable then .containerError "not Serializable"
        else Container.decodeElements entry ec eleDec isInst d

/-!
## Concrete element type and class registry for evaluation

A minimal concrete `Serializable` element type (a `Dog` with a single
persisted `name` field), a container class and a set class over it, and
the registry resolving their fully-qualified names.  These play the role
of the domain types that subclass the framework. -/

/-- A concrete `Serializable` element with one persisted field. -/
structure Dog where
  name : String
deriving DecidableEq, Repr

/-- `Dog.serialize`: one field, in attribute order. -/
def Dog.serialize (g : Dog) : Json := .obj [("name", .str g.name)]

/-- `Dog.from_dict`: field-by-field reconstruction. -/
def Dog.from_dict : Json → Option Dog
  | .obj [("name", .str s)] => some ⟨s⟩
  | _ => none

/-- Element decoding indexed by element class name: only `"test.Dog"`
resolves, to `Dog.from_dict`. -/
def testEleDec : String → Json → Option Dog :=
  fun n j => if n = "test.Dog" then Dog.from_dict j else none

/-- `isinstance` against an element class name: every `Dog` is an
instance of exactly the class `"test.Dog"`. -/
def testIsInst : String → Dog → Bool := fun n _ => n = "test.Dog"

/-- A concrete `Container` subclass over `Dog`, with the default
`_ELE_CLS_FIELD` and `_ELE_ATTR` settings. -/
def dogContainerCls : ClsInfo :=
  ⟨"test.DogContainer", "Container", some "_ELEMENT_CLS", "elements",
    some "test.Dog", true⟩

/-- A concrete `Set` subclass over `Dog`, with the default settings. -/
def dogSetCls : ClsInfo :=
  ⟨"test.DogSet", "Set", some "_ELEMENT_CLS", "elements",
    some "test.Dog", true⟩

/-- The type registry (`etau.get_class`) resolving the two concrete
collection classes. -/
def testReg : String → Option ClsInfo :=
  fun n =>
    if n = "test.DogContainer" then some dogContainerCls
    else if n = "test.DogSet" then some dogSetCls
    else none

/-!
## Claim C3: the order of interpretations in `load_json`
-/

/-- C3, counterexample.  The claim says `load_json` tries the file-path
interpretation before the literal-JSON interpretation.  In an environment
where the input `"0"` both parses as the JSON number `0` and names an
existing file whose contents are the JSON number `1`, the code returns
the literally parsed value, not the file's contents: the literal
interpretation is attempted first, so the claimed order is wrong. -/
theorem load_json_claimed_order_counterexample :
    envZero.isfile "0" = true
    ∧ envZero.fileContents "0" = some (.num 1)
    ∧ envZero.parse "0" = some (.num 0)
    ∧ load_json envZero "0" = .ok (.num 0)
    ∧ load_json_claimed_order envZero "0" = .ok (.num 1)
    ∧ load_json envZero "0" ≠ load_json_claimed_order envZero "0" := by
  refine ⟨rfl, rfl, rfl, rfl, rfl, fun hcontra => ?_⟩
  rw [show load_json envZero "0" = .ok (.num 0) from rfl,
    show load_json_claimed_order envZero "0" = .ok (.num 1) from rfl] at hcontra
  simp at hcontra

/-- C3, amended.  `load_json` attempts the three interpretations in the
order: (b) literal JSON string, (a) path to a file on disk, (c)
comma-separated `key=value` shorthand; a later interpretation is tried
only if the earlier ones fail, the single aggregated `ValueError` is
raised exactly when all three fail, and an existing file whose contents
do not parse raises the file-parse error without attempting the
shorthand. -/
theorem load_json_order_amended :
    (∀ (env : JsonEnv) (s : String) (j : Json),
      env.parse s = some j → load_json env s = .ok j)
    ∧ (∀ (env : JsonEnv) (s : String) (j : Json),
      env.parse s = none → env.isfile s = true →
      env.fileContents s = some j → load_json env s = .ok j)
    ∧ (∀ (env : JsonEnv) (s : String),
      env.parse s = none → env.isfile s = true →
      env.fileContents s = none → load_json env s = .parseFileError s)
    ∧ (∀ (env : JsonEnv) (s : String) (d : List (String × Json)),
      env.parse s = none → env.isfile s = false →
      parseKeyVals env.parse s = some d → load_json env s = .ok (.obj d))
    ∧ (∀ (env : JsonEnv) (s : String),
      env.parse s = none → env.isfile s = false →
      parseKeyVals env.parse s = none →
      load_json env s = .unableToLoad s) := by
  refine ⟨?_, ?_, ?_, ?_, ?_⟩
  · intro env s j h1
    simp [load_json, h1]
  · intro env s j h1 h2 h3
    simp [load_json, h1, h2, h3]
  · intro env s h1 h2 h3
    simp [load_json, h1, h2, h3]
  · intro env s d h1 h2 h3
    simp [load_json, h1, h2, h3]
  · intro env s h1 h2 h3
    simp [load_json, h1, h2, h3]

/-- C3, witness for the amended theorem: in the concrete environment
`envZero` the literal-JSON interpretation of `"0"` wins. -/
theorem load_json_order_amended_witness :
    load_json envZero "0" = .ok (.num 0) :=
  load_json_order_amended.1 envZero "0" (.num 0) rfl

/-!
## Claim C4: `Set.add` overwrites on key collision
-/

/-- C4.  Adding two elements whose key attribute values are equal and
non-empty to an empty `Set` leaves exactly one element at that key — the
second one added — with `size = 1`; `Set.add` is total, so no error is
raised. -/
theorem set_add_overwrites_on_key_collision
    (E : Type) (keyOf : E → String) (x y : E)
    (heq : keyOf x = keyOf y) (hne : keyOf x ≠ "") :
    (Set.add keyOf (Set.add keyOf SetState.empty x) y).elements
        = [(SetKey.user (keyOf y), y)]
    ∧ (Set.add keyOf (Set.add keyOf SetState.empty x) y).size = 1 := by
  have hne' : keyOf y ≠ "" := heq ▸ hne
  constructor <;>
    simp [Set.add, SetState.empty, SetState.size, dictSet, hne, hne', heq]

/-- C4, witness: two key-value records with the same key `"k"`. -/
theorem set_add_overwrite_witness :
    (Set.add (fun p : String × Nat => p.1)
        (Set.add (fun p : String × Nat => p.1) SetState.empty ("k", 1))
        ("k", 2)).elements
      = [(SetKey.user "k", ("k", 2))]
    ∧ (Set.add (fun p : String × Nat => p.1)
        (Set.add (fun p : String × Nat => p.1) SetState.empty ("k", 1))
        ("k", 2)).size = 1 :=
  set_add_overwrites_on_key_collision (String × Nat) (fun p => p.1)
    ("k", 1) ("k", 2) rfl (by decide)

/-!
## Claim C9: a one-shot iterator is exhausted by the type-check loop
-/

/-- C9.  When the initial elements are supplied as a one-shot iterator,
the construction-time type check consumes it, `add_iterable` iterates the
exhausted iterator, and the constructed collection is empty with no error
raised — although the same elements supplied as a list are all kept. -/
theorem init_from_iterator_yields_empty
    (E : Type) (isInst : E → Bool) (keyOf : E → String) (l : List E)
    (hvalid : l.all isInst = true) :
    Container.initFromIter isInst ⟨l⟩ = .ok []
    ∧ Set.initFromIter keyOf isInst ⟨l⟩ = .ok SetState.empty
    ∧ Container.initFromList isInst l = .ok l := by
  refine ⟨?_, ?_, ?_⟩ <;>
    simp [Container.initFromIter, Set.initFromIter, Container.initFromList,
      OneShotIter.drain, Set.add_iterable, hvalid]

/-- C9, witness: three valid numbers supplied through a one-shot
iterator produce empty collections. -/
theorem init_from_iterator_witness :
    Container.initFromIter (fun _ : Nat => true) ⟨[1, 2, 3]⟩ = .ok []
    ∧ Set.initFromIter (fun n : Nat => toString n) (fun _ => true) ⟨[1, 2, 3]⟩
        = .ok SetState.empty
    ∧ Container.initFromList (fun _ : Nat => true) [1, 2, 3] = .ok [1, 2, 3] :=
  init_from_iterator_yields_empty Nat (fun _ => true) (fun n => toString n)
    [1, 2, 3] (by decide)

/-!
## Claim C5: surrogate keys are fresh, so no element is lost
-/

/-- Freshness invariant of the surrogate-key generator: every surrogate
key present in the set was produced by an earlier generator state. -/
def SetState.freshInv {E : Type} (s : SetState E) : Prop :=
  ∀ n, SetKey.surrogate n ∈ s.elements.map Prod.fst → n < s.nextId

theorem dictSet_eq_append_of_not_mem {K V : Type} [DecidableEq K]
    (l : List (K × V)) (k : K) (v : V) (h : k ∉ l.map Prod.fst) :
    dictSet l k v = l ++ [(k, v)] := by
  induction l with
  | nil => rfl
  | cons kv t ih =>
    obtain ⟨k1, v1⟩ := kv
    simp only [List.map_cons, List.mem_cons, not_or] at h
    rw [dictSet, if_neg (fun hc => h.1 hc.symm), ih h.2]
    rfl

theorem set_add_empty_key {E : Type} (keyOf : E → String) (s : SetState E)
    (e : E) (h : keyOf e = "") (hinv : s.freshInv) :
    (Set.add keyOf s e).elements
        = s.elements ++ [(SetKey.surrogate s.nextId, e)]
    ∧ (Set.add keyOf s e).nextId = s.nextId + 1 := by
  have hnot : SetKey.surrogate s.nextId ∉ s.elements.map Prod.fst :=
    fun hmem => absurd (hinv _ hmem) (by omega)
  constructor <;>
    simp [Set.add, h, dictSet_eq_append_of_not_mem _ _ _ hnot]

theorem set_add_iterable_empty_keys {E : Type} (keyOf : E → String)
    (es : List E) (h : ∀ e ∈ es, keyOf e = "") :
    ∀ s : SetState E, s.freshInv → (s.elements.map Prod.fst).Nodup →
      (Set.add_iterable keyOf s es).size = s.size + es.length
      ∧ ((Set.add_iterable keyOf s es).elements.map Prod.fst).Nodup := by
  induction es with
  | nil =>
    intro s _ hnd
    simpa [Set.add_iterable, SetState.size] using hnd
  | cons e t ih =>
    intro s hinv hnd
    have he : keyOf e = "" := h e (by simp)
    have hstep := set_add_empty_key keyOf s e he hinv
    have hnot : SetKey.surrogate s.nextId ∉ s.elements.map Prod.fst :=
      fun hmem => absurd (hinv _ hmem) (by omega)
    have hinv' : (Set.add keyOf s e).freshInv := by
      intro n hmem
      rw [hstep.1] at hmem
      rw [hstep.2]
      simp only [List.map_append, List.mem_append, List.map_cons,
        List.map_nil, List.mem_singleton] at hmem
      rcases hmem with hmem | hmem
      · exact Nat.lt_succ_of_lt (hinv n hmem)
      · simp only [SetKey.surrogate.injEq] at hmem
        omega
    have hnd' : ((Set.add keyOf s e).elements.map Prod.fst).Nodup := by
      rw [hstep.1]
      simp [List.nodup_append, hnd, hnot]
    have hrest :=
      ih (fun e' he' => h e' (by simp [he'])) (Set.add keyOf s e) hinv' hnd'
    have hiter :
        Set.add_iterable keyOf s (e :: t)
          = Set.add_iterable keyOf (Set.add keyOf s e) t := rfl
    have hsize : (Set.add keyOf s e).size = s.size + 1 := by
      simp [SetState.size, hstep.1]
    rw [hiter]
    refine ⟨?_, hrest.2⟩
    rw [hrest.1, hsize]
    simp only [List.length_cons]
    omega

/-- C5.  Adding any number of elements whose key attribute is empty to an
empty `Set` assigns each a freshly generated surrogate key: the resulting
keys are pairwise distinct and `size` equals the number of elements
added, so no element is silently lost.  (`str(uuid4())` is modelled as a
fresh-name generator.) -/
theorem set_surrogate_keys_distinct (E : Type) (keyOf : E → String)
    (es : List E) (h : ∀ e ∈ es, keyOf e = "") :
    (Set.add_iterable keyOf SetState.empty es).size = es.length
    ∧ ((Set.add_iterable keyOf SetState.empty es).elements.map
        Prod.fst).Nodup := by
  have hmain := set_add_iterable_empty_keys keyOf es h SetState.empty
    (fun n hn => by simp [SetState.empty] at hn) (by simp [SetState.empty])
  simpa [SetState.size, SetState.empty] using hmain

/-- C5, witness: 1000 elements with empty key fields yield 1000 distinct
keys and `size = 1000`. -/
theorem set_surrogate_keys_witness :
    (Set.add_iterable (fun _ : Unit => "") SetState.empty
        (List.replicate 1000 ())).size = 1000
    ∧ ((Set.add_iterable (fun _ : Unit => "") SetState.empty
        (List.replicate 1000 ())).elements.map Prod.fst).Nodup := by
  have h := set_surrogate_keys_distinct Unit (fun _ => "")
    (List.replicate 1000 ()) (fun e _ => rfl)
  rwa [List.length_replicate] at h

/-!
## Claim C8: `filter_elements` / `get_matches` combinator semantics
-/

theorem any_eq_decide_exists {α : Type} (g : α → Bool) (l : List α) :
    l.any g = decide (∃ x ∈ l, g x = true) := by
  induction l with
  | nil => simp
  | cons a t ih => by_cases h : g a <;> simp [h, ih]

theorem all_eq_decide_forall {α : Type} (g : α → Bool) (l : List α) :
    l.all g = decide (∀ x ∈ l, g x = true) := by
  induction l with
  | nil => simp
  | cons a t ih => by_cases h : g a <;> simp [h, ih]

/-- C8.  With combinator `any`, `filter_elements` retains exactly the
elements satisfying at least one filter; with `all`, exactly those
satisfying every filter — both for `Container` and for `Set`.
`get_matches` returns the filtered collection and leaves the original
untouched.  In particular an element matching only the second of two
filters is retained under `any` and removed under `all`. -/
theorem filter_elements_combinators :
    (∀ (E : Type) (filters : List (E → Bool)) (l : List E),
      Container.filter_elements filters .any l
        = l.filter (fun e => decide (∃ f ∈ filters, f e = true)))
    ∧ (∀ (E : Type) (filters : List (E → Bool)) (l : List E),
      Container.filter_elements filters .all l
        = l.filter (fun e => decide (∀ f ∈ filters, f e = true)))
    ∧ (∀ (E : Type) (filters : List (E → Bool)) (s : SetState E),
      (Set.filter_elements filters .any s).elements
        = s.elements.filter (fun kv => decide (∃ f ∈ filters, f kv.2 = true)))
    ∧ (∀ (E : Type) (filters : List (E → Bool)) (s : SetState E),
      (Set.filter_elements filters .all s).elements
        = s.elements.filter (fun kv => decide (∀ f ∈ filters, f kv.2 = true)))
    ∧ (∀ (E : Type) (filters : List (E → Bool)) (m : Combinator)
        (l : List E),
      (Container.get_matches filters m l).1
          = Container.filter_elements filters m l
      ∧ (Container.get_matches filters m l).2 = l)
    ∧ (∀ (E : Type) (filters : List (E → Bool)) (m : Combinator)
        (s : SetState E),
      (Set.get_matches filters m s).1 = Set.filter_elements filters m s
      ∧ (Set.get_matches filters m s).2 = s)
    ∧ Container.filter_elements
        [fun n : Nat => n == 1, fun n : Nat => n == 2] .any [2] = [2]
    ∧ Container.filter_elements
        [fun n : Nat => n == 1, fun n : Nat => n == 2] .all [2] = [] := by
  refine ⟨?_, ?_, ?_, ?_, fun E filters m l => ⟨rfl, rfl⟩,
    fun E filters m s => ⟨rfl, rfl⟩, by decide, by decide⟩
  · intro E filters l
    exact List.filter_congr fun e _ => by
      simp [Combinator.combine, List.any_map, any_eq_decide_exists]
  · intro E filters l
    exact List.filter_congr fun e _ => by
      simp [Combinator.combine, List.all_map, all_eq_decide_forall]
  · intro E filters s
    exact List.filter_congr fun kv _ => by
      simp [Combinator.combine, List.any_map, any_eq_decide_exists]
  · intro E filters s
    exact List.filter_congr fun kv _ => by
      simp [Combinator.combine, List.all_map, all_eq_decide_forall]

/-!
## Claims C7 and C10: reflective dispatch in `Serializable.from_dict`
-/

theorem from_dict_lookup_none (reg : Json → Option SCls) (d : Dict)
    (h : d.lookup "_CLS" = none) :
    Serializable.from_dict reg d = (.notImplemented, d) := by
  rw [Serializable.from_dict]
  split
  · next v heq =>
      rw [h] at heq
      exact Option.noConfusion heq
  · rfl

/-- C7.  `Serializable.from_dict` without a `"_CLS"` tag raises
`NotImplementedError`; with a tag that resolves to a class overriding
`from_dict` it delegates to that class with the tag removed; and with a
tag that resolves to a class *not* overriding `from_dict` the recursive
call sees a tag-less dictionary and raises `NotImplementedError` instead
of recursing forever. -/
theorem serializable_from_dict_dispatch :
    (∀ (reg : Json → Option SCls) (d : Dict),
      d.lookup "_CLS" = none →
      Serializable.from_dict reg d = (.notImplemented, d))
    ∧ (∀ (reg : Json → Option SCls) (d : Dict) (v : Json) (c : SCls),
      d.lookup "_CLS" = some v → reg v = some c → c.hasFromDict = true →
      Serializable.from_dict reg d
        = (.obj c.name (eraseCLS d), eraseCLS d))
    ∧ (∀ (reg : Json → Option SCls) (d : Dict) (v : Json) (c : SCls),
      d.lookup "_CLS" = some v → reg v = some c → c.hasFromDict = false →
      Serializable.from_dict reg d = (.notImplemented, eraseCLS d)) := by
  refine ⟨from_dict_lookup_none, ?_, ?_⟩
  · intro reg d v c h hr hf
    rw [Serializable.from_dict]
    split
    · next v' heq =>
        rw [h] at heq
        injection heq with hv
        subst hv
        rw [hr]
        simp [hf]
    · next heq =>
        rw [h] at heq
        exact Option.noConfusion heq
  · intro reg d v c h hr hf
    rw [Serializable.from_dict]
    split
    · next v' heq =>
        rw [h] at heq
        injection heq with hv
        subst hv
        rw [hr]
        simp only [hf, Bool.false_eq_true, if_false]
        exact from_dict_lookup_none reg _ (lookup_eraseCLS d)
    · next heq =>
        rw [h] at heq
        exact Option.noConfusion heq

/-- A registry with one class that does not override `from_dict`. -/
def sregPlain : Json → Option SCls
  | .str s => if s = "test.Plain" then some ⟨"test.Plain", false⟩ else none
  | _ => none

/-- C7, witness: decoding a tagged dictionary whose class does not
override `from_dict` raises `NotImplementedError` on the second pass. -/
theorem serializable_from_dict_witness :
    Serializable.from_dict sregPlain
        [("_CLS", .str "test.Plain"), ("x", .num 1)]
      = (.notImplemented, [("x", Json.num 1)]) :=
  serializable_from_dict_dispatch.2.2 sregPlain
    [("_CLS", .str "test.Plain"), ("x", .num 1)]
    (.str "test.Plain") ⟨"test.Plain", false⟩ rfl rfl rfl

/-- C10.  Whenever the argument dictionary contains the `"_CLS"` key,
`Serializable.from_dict` pops it from the caller's dictionary: whatever
the outcome (object, import error, or `NotImplementedError`), the
dictionary no longer contains `"_CLS"` after the call. -/
theorem from_dict_pops_cls_tag :
    ∀ (reg : Json → Option SCls) (d : Dict) (v : Json),
      d.lookup "_CLS" = some v →
      ((Serializable.from_dict reg d).2).lookup "_CLS" = none := by
  intro reg d v h
  rw [Serializable.from_dict]
  split
  · next v' heq =>
      rw [h] at heq
      injection heq with hv
      subst hv
      cases hr : reg v with
      | none => exact lookup_eraseCLS d
      | some c =>
        by_cases hf : c.hasFromDict
        · simp only [hf, if_true]
          exact lookup_eraseCLS d
        · simp only [hf, Bool.false_eq_true, if_false]
          rw [from_dict_lookup_none reg _ (lookup_eraseCLS d)]
          exact lookup_eraseCLS d
  · next heq =>
      rw [h] at heq
      exact Option.noConfusion heq

/-- C10, witness: after the call on a concrete tagged dictionary, the
caller's dictionary has lost its `"_CLS"` key. -/
theorem from_dict_pops_cls_tag_witness :
    ((Serializable.from_dict sregPlain
        [("_CLS", .str "test.Plain"), ("x", .num 1)]).2).lookup "_CLS"
      = none :=
  from_dict_pops_cls_tag sregPlain
    [("_CLS", .str "test.Plain"), ("x", .num 1)] (.str "test.Plain") rfl

/-!
## Claim C6: `sort_by` — stability and null-last placement

Generic facts about the stable insertion sort `pySorted`, then the
order-theoretic facts about the key comparison of `field_none_last`, and
finally the claim.
-/

theorem mem_pyInsert {α : Type} (le : α → α → Bool) (a x : α) :
    ∀ s : List α, x ∈ pyInsert le a s ↔ x = a ∨ x ∈ s := by
  intro s
  induction s with
  | nil => simp [pyInsert]
  | cons b t ih =>
    by_cases h : le a b <;> simp [pyInsert, h, ih] <;> tauto

theorem pyInsert_pairwise {α : Type} (le : α → α → Bool)
    (htot : ∀ x y, le x y = true ∨ le y x = true)
    (htrans : ∀ x y z, le x y = true → le y z = true → le x z = true)
    (a : α) :
    ∀ s : List α, s.Pairwise (fun x y => le x y = true) →
      (pyInsert le a s).Pairwise (fun x y => le x y = true) := by
  intro s
  induction s with
  | nil =>
    intro _
    simp [pyInsert]
  | cons b t ih =>
    intro hp
    rw [List.pairwise_cons] at hp
    obtain ⟨hb, ht⟩ := hp
    by_cases h : le a b
    · rw [pyInsert, if_pos h]
      refine List.Pairwise.cons ?_ (List.Pairwise.cons hb ht)
      intro y hy
      rcases List.mem_cons.mp hy with rfl | hyt
      · exact h
      · exact htrans a b y h (hb y hyt)
    · rw [pyInsert, if_neg h]
      refine List.Pairwise.cons ?_ (ih ht)
      intro y hy
      rcases (mem_pyInsert le a y t).mp hy with rfl | hyt
      · rcases htot y b with hab | hba
        · exact absurd hab h
        · exact hba
      · exact hb y hyt

theorem pySorted_pairwise {α : Type} (le : α → α → Bool)
    (htot : ∀ x y, le x y = true ∨ le y x = true)
    (htrans : ∀ x y z, le x y = true → le y z = true → le x z = true) :
    ∀ l : List α, (pySorted le l).Pairwise (fun x y => le x y = true) := by
  intro l
  induction l with
  | nil => simp [pySorted]
  | cons a t ih => exact pyInsert_pairwise le htot htrans a _ ih

theorem pyInsert_perm {α : Type} (le : α → α → Bool) (a : α) :
    ∀ s : List α, (pyInsert le a s).Perm (a :: s) := by
  intro s
  induction s with
  | nil => exact List.Perm.refl _
  | cons b t ih =>
    by_cases h : le a b
    · rw [pyInsert, if_pos h]
    · rw [pyInsert, if_neg h]
      exact (List.Perm.cons b ih).trans (List.Perm.swap a b t)

theorem pySorted_perm {α : Type} (le : α → α → Bool) :
    ∀ l : List α, (pySorted le l).Perm l := by
  intro l
  induction l with
  | nil => exact List.Perm.refl _
  | cons a t ih => exact (pyInsert_perm le a _).trans (List.Perm.cons a ih)

theorem pyInsert_filter_pos {α : Type} (le : α → α → Bool) (p : α → Bool)
    (a : α) (hpa : p a = true)
    (hall : ∀ b, p b = true → le a b = true) :
    ∀ s : List α, (pyInsert le a s).filter p = a :: s.filter p := by
  intro s
  induction s with
  | nil => simp [pyInsert, hpa]
  | cons b t ih =>
    by_cases h : le a b
    · rw [pyInsert, if_pos h]
      simp [List.filter_cons, hpa]
    · have hpb : p b = false := by
        cases hpb : p b
        · rfl
        · exact absurd (hall b hpb) h
      rw [pyInsert, if_neg h]
      simp [List.filter_cons, hpb, ih]

theorem pySorted_filter {α : Type} (le : α → α → Bool) (p : α → Bool)
    (hcls : ∀ x y, p x = true → p y = true → le x y = true) :
    ∀ l : List α, (pySorted le l).filter p = l.filter p := by
  intro l
  induction l with
  | nil => rfl
  | cons a t ih =>
    cases hpa : p a
    · have hneg : ∀ s : List α, (pyInsert le a s).filter p = s.filter p := by
        intro s
        induction s with
        | nil => simp [pyInsert, hpa]
        | cons b t' ih' =>
          by_cases h : le a b
          · rw [pyInsert, if_pos h]
            simp [List.filter_cons, hpa]
          · rw [pyInsert, if_neg h]
            simp [List.filter_cons, ih']
      rw [pySorted, hneg, ih]
      simp [List.filter_cons, hpa]
    · rw [pySorted,
        pyInsert_filter_pos le p a hpa (fun b hb => hcls a b hpa hb), ih]
      simp [List.filter_cons, hpa]

theorem pairwise_eq_filter_append {α : Type} (bad : α → Bool) :
    ∀ l : List α, l.Pairwise (fun x y => bad x = true → bad y = true) →
      l = l.filter (fun x => !bad x) ++ l.filter bad := by
  intro l
  induction l with
  | nil => intro _; rfl
  | cons a t ih =>
    intro hp
    rw [List.pairwise_cons] at hp
    obtain ⟨ha, ht⟩ := hp
    cases hba : bad a
    · simp only [List.filter_cons, hba, Bool.not_false, if_true,
        Bool.false_eq_true, if_false, List.cons_append]
      exact congrArg (a :: ·) (ih ht)
    · have hallbad : ∀ b ∈ t, bad b = true := fun b hb => ha b hb hba
      have h1 : t.filter (fun x => !bad x) = [] := by
        rw [List.filter_eq_nil_iff]
        intro b hb
        simp [hallbad b hb]
      have h2 : t.filter bad = t :=
        List.filter_eq_self.mpr fun b hb => hallbad b hb
      simp [List.filter_cons, hba, h1, h2]

theorem valLe_total : ∀ v w, valLe v w = true ∨ valLe w v = true := by
  intro v w
  cases v <;> cases w <;> simp [valLe] <;> omega

theorem valLe_trans :
    ∀ u v w, valLe u v = true → valLe v w = true → valLe u w = true := by
  intro u v w
  cases u <;> cases v <;> cases w <;> simp [valLe] <;> omega

theorem valLe_refl : ∀ v, valLe v v = true := by
  intro v
  cases v <;> simp [valLe]

theorem keyLe_total : ∀ k1 k2, keyLe k1 k2 = true ∨ keyLe k2 k1 = true := by
  intro k1 k2
  obtain ⟨b1, v1⟩ := k1
  obtain ⟨b2, v2⟩ := k2
  cases b1 <;> cases b2 <;> simp [keyLe] <;> exact valLe_total _ _

theorem keyLe_trans :
    ∀ j k m, keyLe j k = true → keyLe k m = true → keyLe j m = true := by
  intro j k m
  obtain ⟨b1, v1⟩ := j
  obtain ⟨b2, v2⟩ := k
  obtain ⟨b3, v3⟩ := m
  cases b1 <;> cases b2 <;> cases b3 <;> simp [keyLe] <;>
    exact valLe_trans _ _ _

theorem keyLe_refl : ∀ k, keyLe k k = true := by
  intro k
  obtain ⟨b, v⟩ := k
  cases b <;> simp [keyLe, valLe_refl]

theorem sortByLe_total {E : Type} (attr : E → Option Int) (reverse : Bool) :
    ∀ x y : E,
      sortByLe attr reverse x y = true ∨ sortByLe attr reverse y x = true := by
  intro x y
  cases reverse <;> simp only [sortByLe, if_true, if_false,
    Bool.false_eq_true] <;>
    exact keyLe_total _ _

theorem sortByLe_trans {E : Type} (attr : E → Option Int) (reverse : Bool) :
    ∀ x y z : E, sortByLe attr reverse x y = true →
      sortByLe attr reverse y z = true →
      sortByLe attr reverse x z = true := by
  intro x y z
  cases reverse <;> simp only [sortByLe, if_true, if_false,
    Bool.false_eq_true]
  · exact keyLe_trans _ _ _
  · exact fun h1 h2 => keyLe_trans _ _ _ h2 h1

theorem sortByLe_none_mono {E : Type} (attr : E → Option Int)
    (reverse : Bool) :
    ∀ x y : E, sortByLe attr reverse x y = true →
      (attr x).isNone = true → (attr y).isNone = true := by
  intro x y
  cases reverse <;> cases hx : attr x <;> cases hy : attr y <;>
    simp [sortByLe, field_none_last, keyLe, valLe, hx, hy]

theorem sortByLe_refl_of_attr_eq {E : Type} (attr : E → Option Int)
    (reverse : Bool) (x y : E) (h : attr x = attr y) :
    sortByLe attr reverse x y = true := by
  cases reverse <;>
    simp [sortByLe, field_none_last, h, keyLe_refl]

/-- C6.  `sort_by` is a stable sort that puts the elements whose
attribute value is `None` after all elements with non-`None` values, in
both ascending and descending order, for `Container` and `Set` alike:
the sorted list is a permutation of the input consisting of the
non-null elements followed by the null ones, and the subsequence of
elements sharing any fixed attribute value is preserved (stability).  On
the spec's example, sorting `[3, None, 1]` ascending yields
`[1, 3, None]` and descending yields `[3, 1, None]`. -/
theorem sort_by_stable_none_last :
    (∀ (E : Type) (attr : E → Option Int) (reverse : Bool) (l : List E),
      Container.sort_by attr reverse l
        = (Container.sort_by attr reverse l).filter
            (fun e => !(attr e).isNone)
          ++ (Container.sort_by attr reverse l).filter
            (fun e => (attr e).isNone))
    ∧ (∀ (E : Type) (attr : E → Option Int) (reverse : Bool) (l : List E)
        (v : Option Int),
      (Container.sort_by attr reverse l).filter
          (fun e => decide (attr e = v))
        = l.filter (fun e => decide (attr e = v)))
    ∧ (∀ (E : Type) (attr : E → Option Int) (reverse : Bool) (l : List E),
      (Container.sort_by attr reverse l).Perm l)
    ∧ (∀ (E : Type) (attr : E → Option Int) (reverse : Bool)
        (s : SetState E),
      (Set.sort_by attr reverse s).elements
        = (Set.sort_by attr reverse s).elements.filter
            (fun kv : SetKey × E => !(attr kv.2).isNone)
          ++ (Set.sort_by attr reverse s).elements.filter
            (fun kv : SetKey × E => (attr kv.2).isNone))
    ∧ (∀ (E : Type) (attr : E → Option Int) (reverse : Bool)
        (s : SetState E) (v : Option Int),
      ((Set.sort_by attr reverse s).elements).filter
          (fun kv : SetKey × E => decide (attr kv.2 = v))
        = s.elements.filter (fun kv : SetKey × E => decide (attr kv.2 = v)))
    ∧ Container.sort_by id false [some 3, none, some 1]
        = [some 1, some 3, none]
    ∧ Container.sort_by id true [some 3, none, some 1]
        = [some 3, some 1, none] := by
  refine ⟨?_, ?_, ?_, ?_, ?_, by decide, by decide⟩
  · intro E attr reverse l
    have hp := pySorted_pairwise (sortByLe attr reverse)
      (sortByLe_total attr reverse) (sortByLe_trans attr reverse) l
    exact pairwise_eq_filter_append (fun e => (attr e).isNone) _
      (hp.imp fun hxy => sortByLe_none_mono attr reverse _ _ hxy)
  · intro E attr reverse l v
    refine pySorted_filter _ _ (fun x y hx hy => ?_) l
    rw [decide_eq_true_eq] at hx hy
    exact sortByLe_refl_of_attr_eq attr reverse x y (hx.trans hy.symm)
  · intro E attr reverse l
    exact pySorted_perm _ l
  · intro E attr reverse s
    have hp := pySorted_pairwise
      (fun a b : SetKey × E => sortByLe attr reverse a.2 b.2)
      (fun x y => sortByLe_total attr reverse x.2 y.2)
      (fun x y z => sortByLe_trans attr reverse x.2 y.2 z.2) s.elements
    exact pairwise_eq_filter_append (fun kv : SetKey × E => (attr kv.2).isNone) _
      (hp.imp fun hxy => sortByLe_none_mono attr reverse _ _ hxy)
  · intro E attr reverse s v
    refine pySorted_filter _ _ (fun x y hx hy => ?_) s.elements
    rw [decide_eq_true_eq] at hx hy
    exact sortByLe_refl_of_attr_eq attr reverse x.2 y.2 (hx.trans hy.symm)

/-!
## Claim C1: container round-trip preserves element order
-/

theorem decodeList_map_roundtrip {E : Type} (dec : Json → Option E)
    (ser : E → Json) (h : ∀ e, dec (ser e) = some e) :
    ∀ l : List E, decodeList dec (l.map ser) = some l := by
  intro l
  induction l with
  | nil => rfl
  | cons e t ih =>
    rw [List.map_cons, decodeList, h e, ih]

/-- C1.  For a concrete container class with a concrete element type:
constructing the container from a list keeps the list as is, and
serializing (reflectively or not) then decoding through `from_dict`
yields a container of the same class whose elements appear in exactly
the original order, duplicates included — provided the element type
round-trips, the registry resolves the class to its own descriptor, and
the configured field names are distinct from the reserved tag. -/
theorem container_roundtrip_order
    (E : Type) (cls : ClsInfo) (reg : String → Option ClsInfo)
    (eleSer : E → Json) (eleDec : String → Json → Option E)
    (isInst : String → E → Bool)
    (clsName cf eleClsName af : String)
    (hname : cls.name = clsName)
    (hcf : cls.eleClsField = some cf)
    (haf : cls.eleAttr = af)
    (hec : cls.eleCls = some eleClsName)
    (hser : cls.eleClsSerializable = true)
    (hreg : reg clsName = some cls)
    (hcf1 : cf ≠ "_CLS") (haf1 : af ≠ "_CLS") (haf2 : af ≠ cf)
    (hdec : ∀ e, eleDec eleClsName (eleSer e) = some e)
    (hinst : ∀ e, isInst eleClsName e = true) :
    ∀ (l : List E) (reflective : Bool),
      Container.initFromList (isInst eleClsName) l = .ok l
      ∧ Container.from_dict cls reg eleDec isInst
          (Container.serialize clsName cf eleClsName af eleSer reflective l)
        = .ok clsName l := by
  intro l reflective
  have hall : l.all (isInst eleClsName) = true :=
    List.all_eq_true.mpr fun e _ => hinst e
  have hdecl : decodeList (eleDec eleClsName) (l.map eleSer) = some l :=
    decodeList_map_roundtrip _ _ hdec l
  have hcfne : (cf == "_CLS") = false := by simpa using hcf1
  have hafne : (af == "_CLS") = false := by simpa using haf1
  have hafcf : (af == cf) = false := by simpa using haf2
  have hCLScf : ("_CLS" == cf) = false := by
    simpa using fun hc => hcf1 (by simp_all)
  have hCLSaf : ("_CLS" == af) = false := by
    simpa using fun hc => haf1 (by simp_all)
  have hcfaf : (cf == af) = false := by
    simpa using fun hc => haf2 (by simp_all)
  refine ⟨by simp [Container.initFromList, hall], ?_⟩
  cases reflective
  · simp [Container.serialize, Container.from_dict,
      Container.decodeElements, Container.construct, List.lookup,
      hcf, hec, hser, hname, haf, hCLSaf, hdecl, hall]
  · simp [Container.serialize, Container.from_dict,
      Container.decodeElements, Container.construct, List.lookup,
      Json.str?, hcf, hec, hser, hname, haf, hreg, hcfne, hafne,
      hafcf, hCLScf, hCLSaf, hcfaf, hdecl, hall]

/-- C1, witness: a three-element list with a duplicate round-trips in
the original order through both the reflective and the plain
serialization of the concrete `Dog` container. -/
theorem container_roundtrip_witness :
    Container.from_dict dogContainerCls testReg testEleDec testIsInst
        (Container.serialize "test.DogContainer" "_ELEMENT_CLS" "test.Dog"
          "elements" Dog.serialize true [⟨"a"⟩, ⟨"b"⟩, ⟨"a"⟩])
      = .ok "test.DogContainer" [⟨"a"⟩, ⟨"b"⟩, ⟨"a"⟩]
    ∧ Container.from_dict dogContainerCls testReg testEleDec testIsInst
        (Container.serialize "test.DogContainer" "_ELEMENT_CLS" "test.Dog"
          "elements" Dog.serialize false [⟨"a"⟩, ⟨"b"⟩, ⟨"a"⟩])
      = .ok "test.DogContainer" [⟨"a"⟩, ⟨"b"⟩, ⟨"a"⟩] :=
  ⟨(container_roundtrip_order Dog dogContainerCls testReg Dog.serialize
      testEleDec testIsInst "test.DogContainer" "_ELEMENT_CLS" "test.Dog"
      "elements" rfl rfl rfl rfl rfl rfl (by decide) (by decide)
      (by decide) (fun e => rfl) (fun e => rfl)
      [⟨"a"⟩, ⟨"b"⟩, ⟨"a"⟩] true).2,
    (container_roundtrip_order Dog dogContainerCls testReg Dog.serialize
      testEleDec testIsInst "test.DogContainer" "_ELEMENT_CLS" "test.Dog"
      "elements" rfl rfl rfl rfl rfl rfl (by decide) (by decide)
      (by decide) (fun e => rfl) (fun e => rfl)
      [⟨"a"⟩, ⟨"b"⟩, ⟨"a"⟩] false).2⟩

/-!
## Claim C2: no cross-hierarchy rejection in reflective decoding
-/

/-- C2, counterexample.  A reflectively serialized document of the `Set`
subclass `test.DogSet`, decoded through the `Container` entry point
`Container.from_dict` on the `Container` subclass `test.DogContainer`,
is *not* rejected: the decode succeeds and returns an object of the
foreign `Set` hierarchy. -/
theorem container_cross_decode_counterexample :
    (testReg "test.DogSet").map ClsInfo.hier = some "Set"
    ∧ dogContainerCls.hier = "Container"
    ∧ Container.from_dict dogContainerCls testReg testEleDec testIsInst
        (Set.serialize "test.DogSet" "_ELEMENT_CLS" "test.Dog" "elements"
          Dog.serialize true ⟨[(SetKey.user "rex", ⟨"rex"⟩)], 0⟩)
      = .ok "test.DogSet" [⟨"rex"⟩]
    ∧ (Container.from_dict dogContainerCls testReg testEleDec testIsInst
        (Set.serialize "test.DogSet" "_ELEMENT_CLS" "test.Dog" "elements"
          Dog.serialize true ⟨[(SetKey.user "rex", ⟨"rex"⟩)], 0⟩)).isOk
      = true :=
  ⟨rfl, rfl, rfl, rfl⟩

/-- C2, amended.  The capability entry points perform no subtype check
on the resolved type: whenever the tag resolves and the structural
fields are present and decode, `Container.from_dict` succeeds and
returns an instance of the *resolved* class — whatever hierarchy that
class belongs to and however it relates to the entry class.  (No
hypothesis below constrains `cls.hier`, `entry.hier`, or any relation
between `cls` and `entry`.) -/
theorem container_from_dict_no_subtype_check
    (E : Type) (entry cls : ClsInfo) (reg : String → Option ClsInfo)
    (eleDec : String → Json → Option E) (isInst : String → E → Bool)
    (d : Dict) (entryCF cf clsName eleClsName ec : String)
    (items : List Json) (elements : List E)
    (h1 : entry.eleClsField = some entryCF)
    (h2 : d.lookup "_CLS" = some (.str clsName))
    (h3 : (d.lookup entryCF).isNone = false)
    (h4 : reg clsName = some cls)
    (h5 : cls.eleClsField = some cf)
    (h6 : d.lookup cf = some (.str eleClsName))
    (h7 : d.lookup cls.eleAttr = some (.arr items))
    (h8 : decodeList (eleDec eleClsName) items = some elements)
    (h9 : cls.eleCls = some ec)
    (h10 : cls.eleClsSerializable = true)
    (h11 : elements.all (isInst ec) = true) :
    Container.from_dict entry reg eleDec isInst d
      = .ok cls.name elements := by
  simp [Container.from_dict, Container.decodeElements,
    Container.construct, Json.str?, h1, h2, h3, h4, h5, h6, h7, h8,
    h9, h10, h11]

/-- C2, witness for the amended theorem: the concrete cross-hierarchy
decode of the counterexample succeeds through the hypothesis-free
resolution path. -/
theorem container_no_subtype_check_witness :
    Container.from_dict dogContainerCls testReg testEleDec testIsInst
        (Set.serialize "test.DogSet" "_ELEMENT_CLS" "test.Dog" "elements"
          Dog.serialize true ⟨[(SetKey.user "fido", ⟨"fido"⟩)], 0⟩)
      = .ok "test.DogSet" [⟨"fido"⟩] :=
  container_from_dict_no_subtype_check Dog dogContainerCls dogSetCls
    testReg testEleDec testIsInst
    (Set.serialize "test.DogSet" "_ELEMENT_CLS" "test.Dog" "elements"
      Dog.serialize true ⟨[(SetKey.user "fido", ⟨"fido"⟩)], 0⟩)
    "_ELEMENT_CLS" "_ELEMENT_CLS" "test.DogSet" "test.Dog" "test.Dog"
    [Dog.serialize ⟨"fido"⟩] [⟨"fido"⟩]
    rfl rfl rfl rfl rfl rfl rfl rfl rfl rfl rfl

end Eta
